import Mathlib

/-!
Shallow embedding of `barman/cloud_providers/google_cloud_storage.py`
(`GoogleCloudInterface`).

Python strings are modelled as `List Char` (`Str`), byte payloads as
`List Nat` (`Bytes`).  The bucket's contents are an association list from
keys to payloads (`Store`); the Google Cloud Storage client calls made by
the adapter (`blob.upload_from_file`, `blob.delete`, `bucket.get_blob`,
`bucket.exists`, `client.list_blobs`) are modelled by pure functions over
that store, together with an explicit trace of the provider calls issued
(`ProviderCall`) and of the adapter's `logging` calls (`LogEvent`).
Provider-side failures are injected through explicit failure oracles, so
that the adapter's `try/except` logic can be embedded faithfully.
-/

namespace GcsSpec

/-- Python strings, modelled character by character. -/
abbrev Str := List Char

/-- Byte payloads of uploaded objects. -/
abbrev Bytes := List Nat

/-- Python exceptions that appear in the source file: `GoogleAPIError`
(raised by the google SDK and caught by `test_connectivity` and
`delete_objects`), `ValueError` (raised by `_parse_url`), `RuntimeError`
(raised by `delete_objects`), and `TypeError` (raised at runtime by the
call `e.with_traceback()` in `upload_fileobj`, which omits the method's
required `tb` argument). -/
inductive PyExc where
  | googleAPIError (msg : Str)
  | valueError (msg : Str)
  | runtimeError (msg : Str)
  | typeError (msg : Str)
deriving DecidableEq, Repr

/-- One network call issued to the storage provider. -/
inductive ProviderCall where
  | uploadObj (key : Str)
  | deleteObj (key : Str)
  | getBlob (key : Str)
  | bucketExists
deriving DecidableEq, Repr

/-- One `logging` call made by the adapter.  `errorType e` embeds
`logging.error(type(e))`, `errorDict e` embeds `logging.error(e.__dict__)`. -/
inductive LogEvent where
  | infoMsg (msg : Str)
  | errorType (e : PyExc)
  | errorDict (e : PyExc)
  | errorMsg (msg : Str)
deriving DecidableEq, Repr

/-- The bucket's contents: an association list from object keys to byte
payloads. -/
abbrev Store := List (Str × Bytes)

/-- Look up the payload stored at a key (the provider's object lookup). -/
def lookupKey (st : Store) (k : Str) : Option Bytes :=
  match st with
  | [] => none
  | (k', b) :: rest => if k' = k then some b else lookupKey rest k

/-- Store a payload at a key, overwriting any existing object there
(the semantics of a provider `put`). -/
def setKey (st : Store) (k : Str) (b : Bytes) : Store :=
  (k, b) :: st.filter (fun e => ¬ e.1 = k)

/-- Remove every entry stored at a key (the semantics of a provider
`delete`). -/
def eraseKey (st : Store) (k : Str) : Store :=
  st.filter (fun e => ¬ e.1 = k)

@[simp] theorem lookupKey_setKey_self (st : Store) (k : Str) (b : Bytes) :
    lookupKey (setKey st k b) k = some b := by
  simp [setKey, lookupKey]

theorem lookupKey_eraseKey_ne (st : Store) (k k' : Str) (h : k' ≠ k) :
    lookupKey (eraseKey st k') k = lookupKey st k := by
  induction st with
  | nil => rfl
  | cons e rest ih =>
    obtain ⟨a, b⟩ := e
    by_cases he : a = k'
    · have hak : ¬ a = k := by rw [he]; exact h
      simpa [eraseKey, lookupKey, List.filter_cons, he, hak, h] using ih
    · by_cases hk : a = k
      · simp [eraseKey, lookupKey, List.filter_cons, he, hk, Ne.symm h]
      · simpa [eraseKey, lookupKey, List.filter_cons, he, hk] using ih

/-! ## `test_connectivity` (source lines 117–129)

`_check_bucket_existence` is a single provider call whose outcome is either
a boolean (the bucket exists / does not exist) or a raised
`GoogleAPIError`; `test_connectivity` wraps it in `try/except`.  The
adapter's `self.bucket_exists` cache (initialised to `None` in
`__init__`) is the `Option Bool` state threaded through the call. -/

/-- Outcome of the provider's `bucket.exists()` call: a boolean answer, or
a raised `GoogleAPIError`. -/
inductive ProbeOutcome where
  | ok (b : Bool)
  | err (msg : Str)
deriving DecidableEq, Repr

/-- Embedding of `test_connectivity`: on a successful probe it assigns
`self.bucket_exists` and returns `True`; on `GoogleAPIError` it logs and
returns `False` (the `self.bucket_exists` assignment never executes, so
the cache keeps its prior value).  Result: (returned boolean, new
`bucket_exists` cache, log). -/
def test_connectivity (outcome : ProbeOutcome) (bucket_exists : Option Bool) :
    Bool × Option Bool × List LogEvent :=
  match outcome with
  | .ok b => (true, some b, [])
  | .err m =>
      (false, bucket_exists,
        [LogEvent.errorMsg (String.toList "Can't connect to cloud provider: " ++ m)])

/-! ## `remote_open` (source lines 185–198)

`bucket.get_blob(key)` performs one provider lookup and returns `None`
when no object exists at the key; otherwise `blob.open("r")` returns a
lazy reader over the blob's content without issuing a further call at
open time. -/

/-- Embedding of `remote_open`: (returned stream or `None`, provider call
trace). -/
def remote_open (st : Store) (key : Str) : Option Bytes × List ProviderCall :=
  match lookupKey st key with
  | none => (none, [ProviderCall.getBlob key])
  | some b => (some b, [ProviderCall.getBlob key])

/-! ## `upload_fileobj` (source lines 200–216)

`blob.upload_from_file(fileobj)` either stores the full payload at the key
or raises a provider error; the failure is injected as the `fail` oracle
argument.  On failure the handler runs `logging.error(type(e))`,
`logging.error(e.__dict__)`, and then `logging.error(e.with_traceback())`
— but `BaseException.with_traceback` takes exactly one positional
argument, so this last call itself raises a `TypeError` and the final
`raise e` statement is never reached. -/

/-- Result of one adapter operation: the store afterwards, the exception
that propagated (if any), the log, and the provider calls issued. -/
structure OpResult where
  store : Store
  raised : Option PyExc
  log : List LogEvent
  calls : List ProviderCall
deriving DecidableEq, Repr

/-- The `TypeError` message Python produces for
`e.with_traceback()` called with no arguments. -/
def withTracebackMsg : Str :=
  String.toList "with_traceback() takes exactly one argument (0 given)"

/-- Embedding of `upload_fileobj`.  `fail = none` models a successful
`blob.upload_from_file`; `fail = some e` models that call raising `e`. -/
def upload_fileobj (fail : Option PyExc) (st : Store) (key : Str) (body : Bytes) :
    OpResult :=
  let log₀ := [LogEvent.infoMsg (String.toList "upload_fileobj to " ++ key),
               LogEvent.infoMsg (String.toList "blob initiated")]
  match fail with
  | none =>
      { store := setKey st key body, raised := none, log := log₀,
        calls := [ProviderCall.uploadObj key] }
  | some e =>
      { store := st,
        raised := some (PyExc.typeError withTracebackMsg),
        log := log₀ ++ [LogEvent.errorType e, LogEvent.errorDict e],
        calls := [ProviderCall.uploadObj key] }

/-! ## Multipart upload (source lines 219–293)

`create_multipart_upload` returns `[]` and performs no provider call.
`_upload_part` uploads the part's whole body to the *target key itself*
via `upload_fileobj` (each part therefore overwrites the object at the
key) and returns `{"PartNumber": part_number}`.
`_complete_multipart_upload` only logs and does nothing. -/

/-- Embedding of `create_multipart_upload`: the returned upload metadata
(the empty list) together with its log; no provider call is made. -/
def create_multipart_upload (_key : Str) : List Nat × List LogEvent :=
  ([], [LogEvent.infoMsg (String.toList "Create_multipart_upload")])

/-- Embedding of `_upload_part`: result of the operation together with the
returned part metadata `{"PartNumber": part_number}` (modelled as the part
number), `none` when the call raised. -/
def _upload_part (fail : Option PyExc) (st : Store) (key : Str) (body : Bytes)
    (part_number : Nat) : OpResult × Option Nat :=
  let r := upload_fileobj fail st key body
  let r := { r with
    log := LogEvent.infoMsg (String.toList "_upload_part") :: r.log ++
      (if r.raised = none then [LogEvent.infoMsg (String.toList "_upload_part_done")]
       else []) }
  (r, if r.raised = none then some part_number else none)

/-- Embedding of `_complete_multipart_upload`: it logs and returns; the
store is untouched and no provider call is issued. -/
def _complete_multipart_upload (_upload_metadata : List Nat) (_key : Str)
    (_parts_metadata : List Nat) (st : Store) : OpResult :=
  { store := st, raised := none,
    log := [LogEvent.infoMsg (String.toList "_complete_multipart_upload")],
    calls := [] }

/-- Dispatching a sequence of part uploads in a given order: each entry is
`(part_number, body)`, every provider call succeeding.  This is the state
reached after the caller has issued `_upload_part` for each element in
dispatch order. -/
def runParts (st : Store) (key : Str) : List (Nat × Bytes) → Store
  | [] => st
  | (n, b) :: rest => runParts ((_upload_part none st key b n).1.store) key rest

/-! ## `delete_objects` and `_abort_multipart_upload` (source lines 296–329)

`delete_objects` iterates over `list(set(paths))` — the input's distinct
elements, in an order Python leaves unspecified (`List.dedup` here; every
property proved below is order-independent).  Each iteration issues one
`blob.delete()`; a raised `GoogleAPIError` is recorded in the `failures`
dict and the loop continues.  After the loop, a non-empty `failures`
raises `RuntimeError("blabla")`.  The provider's `blob.delete()` raises
`NotFound` (a `GoogleAPIError`) when no object exists at the key; other
provider failures are injected through the `oracle` argument. -/

/-- The message of the provider's `NotFound` error for a missing key. -/
def notFoundMsg (k : Str) : Str :=
  String.toList "404 No such object: " ++ k

/-- Outcome of one `blob.delete()` call. -/
def deleteBlob (oracle : Str → Option Str) (st : Store) (k : Str) :
    Except PyExc Store :=
  match oracle k with
  | some m => .error (.googleAPIError m)
  | none =>
      match lookupKey st k with
      | none => .error (.googleAPIError (notFoundMsg k))
      | some _ => .ok (eraseKey st k)

/-- The `for path in list(set(paths))` loop of `delete_objects`: final
store, accumulated `failures` mapping, and the provider calls issued. -/
def deleteLoop (oracle : Str → Option Str) :
    List Str → Store → Store × List (Str × PyExc) × List ProviderCall
  | [], st => (st, [], [])
  | p :: rest, st =>
      match deleteBlob oracle st p with
      | .ok st' =>
          let r := deleteLoop oracle rest st'
          (r.1, r.2.1, ProviderCall.deleteObj p :: r.2.2)
      | .error e =>
          let r := deleteLoop oracle rest st
          (r.1, (p, e) :: r.2.1, ProviderCall.deleteObj p :: r.2.2)

/-- Embedding of `delete_objects`.  The store mutations performed before a
failure persist; `RuntimeError("blabla")` is raised after the loop iff
`failures` is non-empty. -/
def delete_objects (oracle : Str → Option Str) (st : Store) (paths : List Str) :
    OpResult :=
  let r := deleteLoop oracle paths.dedup st
  { store := r.1,
    raised := if r.2.1 = [] then none
              else some (PyExc.runtimeError (String.toList "blabla")),
    log := [], calls := r.2.2 }

/-- Embedding of `_abort_multipart_upload`: the source calls
`self.delete_objects(key)` passing the *string* `key` where
`delete_objects` expects a list of paths, so Python iterates the string
character by character — each "path" attempted is a one-character key. -/
def _abort_multipart_upload (oracle : Str → Option Str)
    (_upload_metadata : List Nat) (key : Str) (st : Store) : OpResult :=
  delete_objects oracle st (key.map (fun c => [c]))

/-- The provider calls of the delete loop: one `delete` per element, in
order, whatever the oracle answers. -/
theorem deleteLoop_calls (oracle : Str → Option Str) :
    ∀ (l : List Str) (st : Store),
      (deleteLoop oracle l st).2.2 = l.map ProviderCall.deleteObj
  | [], _ => rfl
  | p :: rest, st => by
      rw [deleteLoop]
      cases deleteBlob oracle st p with
      | ok st' => simp [deleteLoop_calls oracle rest st']
      | error e => simp [deleteLoop_calls oracle rest st]

/-- Keys not in the list keep their stored value through the delete loop. -/
theorem deleteLoop_lookup_not_mem (oracle : Str → Option Str) :
    ∀ (l : List Str) (st : Store) (k : Str), k ∉ l →
      lookupKey (deleteLoop oracle l st).1 k = lookupKey st k
  | [], _, _, _ => rfl
  | p :: rest, st, k, hk => by
      have hkp : p ≠ k := fun h => hk (h ▸ List.mem_cons_self p rest)
      have hkrest : k ∉ rest := fun h => hk (List.mem_cons_of_mem p h)
      rw [deleteLoop]
      cases hdel : deleteBlob oracle st p with
      | ok st' =>
          have hst' : st' = eraseKey st p := by
            unfold deleteBlob at hdel
            cases ho : oracle p with
            | some m => rw [ho] at hdel; exact absurd hdel (by simp)
            | none =>
                rw [ho] at hdel
                cases hl : lookupKey st p with
                | none => rw [hl] at hdel; exact absurd hdel (by simp)
                | some b => rw [hl] at hdel; simp at hdel; exact hdel.symm
          simp only []
          rw [deleteLoop_lookup_not_mem oracle rest st' k hkrest, hst',
            lookupKey_eraseKey_ne st k p hkp]
      | error e =>
          simp only []
          rw [deleteLoop_lookup_not_mem oracle rest st k hkrest]

/-- Inversion for a successful `blob.delete()`. -/
theorem deleteBlob_ok_iff (oracle : Str → Option Str) (st : Store) (k : Str) :
    (∃ st', deleteBlob oracle st k = .ok st') ↔
      oracle k = none ∧ lookupKey st k ≠ none := by
  unfold deleteBlob
  cases ho : oracle k with
  | some m => simp
  | none =>
      cases hl : lookupKey st k with
      | none => simp
      | some b => simp

/-- With distinct keys, the delete loop records no failure exactly when
every key had no injected provider failure and named an existing object
in the initial store. -/
theorem deleteLoop_failures_empty (oracle : Str → Option Str) :
    ∀ (l : List Str) (st : Store), l.Nodup →
      ((deleteLoop oracle l st).2.1 = [] ↔
        ∀ k ∈ l, oracle k = none ∧ lookupKey st k ≠ none)
  | [], st, _ => by simp [deleteLoop]
  | p :: rest, st, hnd => by
      have hp : p ∉ rest := (List.nodup_cons.mp hnd).1
      have hrest : rest.Nodup := (List.nodup_cons.mp hnd).2
      rw [deleteLoop]
      cases hdel : deleteBlob oracle st p with
      | ok st' =>
          have hst' : st' = eraseKey st p := by
            unfold deleteBlob at hdel
            cases ho : oracle p with
            | some m => rw [ho] at hdel; exact absurd hdel (by simp)
            | none =>
                rw [ho] at hdel
                cases hl : lookupKey st p with
                | none => rw [hl] at hdel; exact absurd hdel (by simp)
                | some b => rw [hl] at hdel; simp at hdel; exact hdel.symm
          have hhead : oracle p = none ∧ lookupKey st p ≠ none :=
            (deleteBlob_ok_iff oracle st p).mp ⟨st', hdel⟩
          have hlook : ∀ k ∈ rest, lookupKey st' k = lookupKey st k := by
            intro k hk
            have : p ≠ k := fun h => hp (h ▸ hk)
            rw [hst', lookupKey_eraseKey_ne st k p this]
          simp only []
          rw [deleteLoop_failures_empty oracle rest st' hrest]
          constructor
          · intro h k hk
            rcases List.mem_cons.mp hk with h1 | h2
            · exact h1 ▸ hhead
            · exact (hlook k h2) ▸ h k h2
          · intro h k hk
            rw [hlook k hk]
            exact h k (List.mem_cons_of_mem p hk)
      | error e =>
          have hne : ¬ (oracle p = none ∧ lookupKey st p ≠ none) := by
            intro hc
            rcases (deleteBlob_ok_iff oracle st p).mpr hc with ⟨st', h'⟩
            rw [hdel] at h'
            exact absurd h' (by simp)
          simp only []
          constructor
          · intro h; exact absurd h (by simp)
          · intro h
            exact absurd (h p (List.mem_cons_self p rest)) hne

/-- After a non-empty dispatch of part uploads, the object at the key
holds the payload of the last part dispatched: each `_upload_part`
overwrites the whole object. -/
theorem runParts_lookup (key : Str) :
    ∀ (dispatch : List (Nat × Bytes)) (st : Store) (h : dispatch ≠ []),
      lookupKey (runParts st key dispatch) key = some (dispatch.getLast h).2
  | [(_, b)], st, _ => by
      simp [runParts, _upload_part, upload_fileobj, List.getLast]
  | (n, b) :: (m, c) :: rest, st, _ => by
      rw [runParts,
        runParts_lookup key ((m, c) :: rest) _ (List.cons_ne_nil _ _)]
      rw [List.getLast_cons (List.cons_ne_nil _ _)]

/-! ## `_parse_url` (source lines 82–102)

The locator grammar check uses `str.startswith`; `str.replace` replaces
every occurrence of `BASE_URL` left to right (both accepted forms start
with one of the two prefixes, and no occurrence of `BASE_URL` can overlap
the first five characters of the replaced string, so the replaced string
always starts with `"gs://"`).  `urlparse` on a `gs://` URL yields
`netloc` = the characters after `"gs://"` up to the first `/`, `?` or
`#`, and `path` = the remainder up to the first `?` or `#`.
`"".strip("/")`-style trimming is `stripChar '/'`.  Parsing is a pure
function of the input string: no provider call appears anywhere in it. -/

/-- `BASE_URL` (source line 43). -/
def BASE_URL : Str :=
  String.toList "https://console.cloud.google.com/storage/browser/"

/-- Fuel-driven worker for `replaceSub`; the fuel starts at the string's
length, which the remaining string never exceeds. -/
def replaceSubAux (old new : Str) : Nat → Str → Str
  | _, [] => []
  | 0, l => l
  | fuel + 1, c :: rest =>
      if old.isPrefixOf (c :: rest) ∧ old ≠ [] then
        new ++ replaceSubAux old new fuel (rest.drop (old.length - 1))
      else
        c :: replaceSubAux old new fuel rest

/-- Python `str.replace(old, new)`: every occurrence of a non-empty `old`
replaced, scanning left to right. -/
def replaceSub (old new s : Str) : Str :=
  replaceSubAux old new s.length s

/-- Python `str.strip(c)`: the characters `c` removed from both ends. -/
def stripChar (c : Char) (l : Str) : Str :=
  ((l.dropWhile (fun x => x = c)).reverse.dropWhile (fun x => x = c)).reverse

/-- The grammar test of `_parse_url`:
`url.startswith(BASE_URL) or url.startswith("gs://")`. -/
def urlAccepted (url : Str) : Bool :=
  BASE_URL.isPrefixOf url || (String.toList "gs://").isPrefixOf url

/-- `urlparse(gs_url).netloc` for the replaced URL (which starts with
`"gs://"`, five characters). -/
def urlNetloc (url : Str) : Str :=
  ((replaceSub BASE_URL (String.toList "gs://") url).drop 5).takeWhile
    (fun c => !(c == '/' || c == '?' || c == '#'))

/-- `urlparse(gs_url).path` for the replaced URL. -/
def urlPath (url : Str) : Str :=
  (((replaceSub BASE_URL (String.toList "gs://") url).drop 5).drop
      (urlNetloc url).length).takeWhile (fun c => !(c == '?' || c == '#'))

/-- The `ValueError` message for a URL matching neither accepted form
(`os.path.join(BASE_URL, "bucket-name/some/path")` is plain concatenation
because `BASE_URL` ends in a separator). -/
def malformedFormatMsg (url : Str) : Str :=
  String.toList "Google cloud storage URL " ++ url ++
    String.toList " is malformed. Expected format are '" ++ BASE_URL ++
    String.toList "bucket-name/some/path' or 'gs://bucket-name/some/path'"

/-- The `ValueError` message for an empty bucket name. -/
def malformedBucketMsg (url : Str) : Str :=
  String.toList "Google cloud storage URL " ++ url ++
    String.toList " is malformed. Bucket name not found"

/-- Embedding of `_parse_url`. -/
def _parse_url (url : Str) : Except PyExc (Str × Str) :=
  if ¬ urlAccepted url then
    Except.error (PyExc.valueError (malformedFormatMsg url))
  else if urlNetloc url = [] then
    Except.error (PyExc.valueError (malformedBucketMsg url))
  else
    Except.ok (urlNetloc url, stripChar '/' (urlPath url))

/-- The head of `dropWhile p` never satisfies `p`. -/
theorem head?_dropWhile_not (p : Char → Bool) :
    ∀ (l : Str) (x : Char), (l.dropWhile p).head? = some x → p x = false
  | [], x => by intro h; exact absurd h (by simp)
  | c :: rest, x => by
      intro h
      by_cases hc : p c
      · rw [List.dropWhile_cons_of_pos hc] at h
        exact head?_dropWhile_not p rest x h
      · rw [List.dropWhile_cons_of_neg hc] at h
        simp at h
        rw [← h]
        exact Bool.of_not_eq_true hc

/-- `stripChar c` output never ends in `c`. -/
theorem stripChar_getLast (c : Char) (l : Str) (x : Char)
    (h : (stripChar c l).getLast? = some x) : x ≠ c := by
  unfold stripChar at h
  rw [List.getLast?_reverse] at h
  have := head?_dropWhile_not (fun y => y = c) _ _ h
  simpa using this

/-- `stripChar c` output never starts with `c`. -/
theorem stripChar_head (c : Char) (l : Str) (x : Char)
    (h : (stripChar c l).head? = some x) : x ≠ c := by
  unfold stripChar at h
  set m := l.dropWhile (fun y => y = c) with hm
  have hsuf : m.reverse.dropWhile (fun y => y = c) <:+ m.reverse :=
    List.dropWhile_suffix _
  rcases hsuf with ⟨t, ht⟩
  have hmrev : m = (m.reverse.dropWhile (fun y => y = c)).reverse ++ t.reverse := by
    have := congrArg List.reverse ht
    exact (by simpa [List.reverse_append] using this :
      (m.reverse.dropWhile (fun y => decide (y = c))).reverse ++ t.reverse = m).symm
  rcases hx : (m.reverse.dropWhile (fun y => y = c)).reverse with _ | ⟨y, ys⟩
  · rw [hx] at h; exact absurd h (by simp)
  · rw [hx] at h
    simp at h
    have hhead : m.head? = some y := by rw [hmrev, hx]; rfl
    have : (fun y => decide (y = c)) y = false := by
      apply head?_dropWhile_not (fun y => y = c) l
      rw [← hm]; exact hhead
    rw [← h]
    simpa using this

/-! ## `list_bucket` (source lines 154–171)

`client.list_blobs(bucket, prefix, delimiter)` is the google SDK's
delimiter-grouped listing, modelled here from its documented contract
(also quoted by the spec's Object Lister section): with a non-empty
delimiter, keys carrying the prefix whose remainder (past the prefix)
does not contain the delimiter are returned as blobs, and every key whose
remainder does contain the delimiter is grouped under the "virtual
directory" prefix that truncates the key right after the first delimiter
occurrence past the prefix boundary, each such group reported once in
`blobs.prefixes` (a set).  `list_bucket` then returns
`objects + dirs` (source line 171). -/

/-- The delimiter occurs somewhere in `hay`. -/
def containsSub (needle hay : Str) : Bool :=
  (List.range (hay.length + 1)).any (fun i => needle.isPrefixOf (hay.drop i))

/-- Index of the first occurrence of `needle` in `hay`. -/
def firstOcc (needle hay : Str) : Option Nat :=
  (List.range (hay.length + 1)).find? (fun i => needle.isPrefixOf (hay.drop i))

/-- The virtual-directory prefix implied by `key`: the key truncated just
after the first delimiter occurrence past the prefix boundary. -/
def dirPrefixOf (pre delim key : Str) : Str :=
  match firstOcc delim (key.drop pre.length) with
  | some i => key.take (pre.length + i + delim.length)
  | none => key

/-- The `objects` of `list_bucket`: the listed blob names. -/
def listBlobsObjects (keys : List Str) (pre delim : Str) : List Str :=
  (keys.filter (fun k => pre.isPrefixOf k)).filter
    (fun k => !(containsSub delim (k.drop pre.length)))

/-- The `dirs` of `list_bucket`: the listing's distinct virtual-directory
prefixes. -/
def listBlobsPrefixes (keys : List Str) (pre delim : Str) : List Str :=
  (((keys.filter (fun k => pre.isPrefixOf k)).filter
    (fun k => containsSub delim (k.drop pre.length))).map
      (dirPrefixOf pre delim)).dedup

/-- Embedding of `list_bucket`: `objects + dirs`. -/
def list_bucket (keys : List Str) (pre delim : Str) : List Str :=
  listBlobsObjects keys pre delim ++ listBlobsPrefixes keys pre delim

/-- A key whose remainder contains the delimiter yields a directory
prefix whose own remainder also contains the delimiter (at the same
position), so no directory prefix can be listed among the objects. -/
theorem containsSub_dirPrefixOf (pre delim key : Str)
    (hc : containsSub delim (key.drop pre.length) = true) :
    containsSub delim ((dirPrefixOf pre delim key).drop pre.length) = true := by
  have hex : ∃ i ∈ List.range ((key.drop pre.length).length + 1),
      delim.isPrefixOf ((key.drop pre.length).drop i) = true := by
    simpa [containsSub, List.any_eq_true] using hc
  have hsome : (firstOcc delim (key.drop pre.length)).isSome = true := by
    rw [firstOcc, List.find?_isSome]
    exact hex
  rcases ho : firstOcc delim (key.drop pre.length) with _ | i
  · rw [ho] at hsome; exact absurd hsome (by simp)
  · have ho' : (List.range ((key.drop pre.length).length + 1)).find?
        (fun j => delim.isPrefixOf ((key.drop pre.length).drop j)) = some i := by
      rw [← firstOcc, ho]
    have hpi : delim.isPrefixOf ((key.drop pre.length).drop i) = true := by
      have := List.find?_some ho'
      simpa using this
    have hprefix : delim <+: (key.drop pre.length).drop i := by
      simpa using hpi
    have hlen : delim.length ≤ (key.drop pre.length).length - i := by
      have := hprefix.length_le
      simp only [List.length_drop] at this ⊢
      omega
    rw [dirPrefixOf, ho]
    have hdrop : (key.take (pre.length + i + delim.length)).drop pre.length
        = (key.drop pre.length).take (i + delim.length) := by
      rw [List.drop_take]
      congr 1
      omega
    rw [hdrop]
    rw [containsSub, List.any_eq_true]
    refine ⟨i, ?_, ?_⟩
    · rw [List.mem_range]
      have hi : i ≤ (key.drop pre.length).length := by
        have := List.mem_of_find?_eq_some ho'
        simpa [List.mem_range, Nat.lt_succ_iff] using this
      rw [List.length_take]
      omega
    · rw [List.drop_take]
      have : i + delim.length - i = delim.length := by omega
      rw [this]
      have htake : ((key.drop pre.length).drop i).take delim.length = delim :=
        (List.prefix_iff_eq_take.mp hprefix).symm
      rw [htake]
      simp

/-! ## Claim theorems -/

/-- C1, the claim as frozen, refuted at a concrete input: parts 1 and 2
with payloads `[1]` and `[2]` are uploaded in part-number order and the
upload is finalized with the part records sorted by part number, yet the
stored object holds `[2]` — the last part dispatched — and not the
concatenation `[1] ++ [2]` of the payloads in part-number order. -/
theorem multipart_concat_counterexample :
    lookupKey (_complete_multipart_upload [] ['k'] [1, 2]
        (runParts [] ['k'] [(1, [1]), (2, [2])])).store ['k'] = some [2] ∧
      some ([2] : Bytes) ≠ some (([1] : Bytes) ++ [2]) := by
  decide

/-- C1 (amended): for every multipart upload whose parts are dispatched in
any non-empty order via `_upload_part` and then finalized by
`_complete_multipart_upload` with the part records sorted by part number,
the bytes of the object stored at the key equal the payload of the *last
part dispatched* — each part upload overwrites the whole object at the
key, so the concatenation property of the original claim holds only for
single-part uploads (consistently with `MAX_CHUNKS_PER_FILE = 1`). -/
theorem multipart_last_write_wins (st : Store) (key : Str)
    (meta parts : List Nat) (dispatch : List (Nat × Bytes))
    (h : dispatch ≠ []) :
    lookupKey (_complete_multipart_upload meta key parts
        (runParts st key dispatch)).store key = some (dispatch.getLast h).2 := by
  unfold _complete_multipart_upload
  exact runParts_lookup key dispatch st h

/-- C1 witness: the amended theorem applied to parts dispatched in the
order 2, 1 with payloads `[5]` and `[3]`. -/
theorem multipart_last_write_wins_witness :
    lookupKey (_complete_multipart_upload [] ['k'] [1, 2]
        (runParts [] ['k'] [(2, [5]), (1, [3])])).store ['k'] = some [3] :=
  multipart_last_write_wins [] ['k'] [] [1, 2] [(2, [5]), (1, [3])]
    (List.cons_ne_nil _ _)

/-- C2: after an upload of part 1 staged the payload `[7]` at the key
`"ab"`, `_abort_multipart_upload` does *not* remove the object at that
key: because the source passes the key string itself to `delete_objects`
(which expects a list of paths), deletion is attempted for the
one-character keys `"a"` and `"b"` instead; both attempts fail with
`NotFound`, the call raises `RuntimeError("blabla")`, and the object at
`"ab"` is still present afterwards. -/
theorem abort_leaves_object_at_key :
    lookupKey (_abort_multipart_upload (fun _ => none) [] ['a', 'b']
        ((_upload_part none [] ['a', 'b'] [7] 1).1.store)).store ['a', 'b'] =
        some [7] ∧
      (_abort_multipart_upload (fun _ => none) [] ['a', 'b']
        ((_upload_part none [] ['a', 'b'] [7] 1).1.store)).raised =
        some (PyExc.runtimeError (String.toList "blabla")) ∧
      (_abort_multipart_upload (fun _ => none) [] ['a', 'b']
        ((_upload_part none [] ['a', 'b'] [7] 1).1.store)).calls =
        [ProviderCall.deleteObj ['a'], ProviderCall.deleteObj ['b']] := by
  decide

/-- C3, the claim as frozen, refuted at a concrete input: two batches in
which different keys fail (`"x"` in the first, `"y"` in the second) raise
the *same* error value, `RuntimeError("blabla")`, so the raised error
cannot enumerate the failed keys or their causes. -/
theorem delete_objects_error_counterexample :
    (delete_objects (fun _ => none) [] [['x']]).raised =
        (delete_objects (fun _ => none) [] [['y']]).raised ∧
      (delete_objects (fun _ => none) [] [['x']]).raised =
        some (PyExc.runtimeError (String.toList "blabla")) := by
  decide

/-- Unfolding lemma: what `delete_objects` raises. -/
theorem delete_objects_raised (oracle : Str → Option Str) (st : Store)
    (paths : List Str) :
    (delete_objects oracle st paths).raised =
      if (deleteLoop oracle paths.dedup st).2.1 = [] then none
      else some (PyExc.runtimeError (String.toList "blabla")) := rfl

/-- C3 (amended): for every batch of keys, `delete_objects` attempts
deletion exactly once for every distinct key — the sequence of provider
delete calls does not depend on which deletions fail — and after all keys
have been attempted it raises a single error if at least one deletion
failed and returns normally if and only if none failed; but the raised
error is the fixed `RuntimeError("blabla")`, which does not enumerate the
failed keys or their causes. -/
theorem delete_objects_aggregate (oracle : Str → Option Str) (st : Store)
    (paths : List Str) :
    (∀ k ∈ paths, ProviderCall.deleteObj k ∈ (delete_objects oracle st paths).calls) ∧
      (∀ oracle' : Str → Option Str,
        (delete_objects oracle' st paths).calls = (delete_objects oracle st paths).calls) ∧
      ((delete_objects oracle st paths).raised = none ↔
        ∀ k ∈ paths, oracle k = none ∧ lookupKey st k ≠ none) ∧
      (∀ e, (delete_objects oracle st paths).raised = some e →
        e = PyExc.runtimeError (String.toList "blabla")) := by
  refine ⟨?_, ?_, ?_, ?_⟩
  · intro k hk
    unfold delete_objects
    simp only [deleteLoop_calls]
    exact List.mem_map_of_mem ProviderCall.deleteObj (List.mem_dedup.mpr hk)
  · intro oracle'
    unfold delete_objects
    simp only [deleteLoop_calls]
  · have hiff := deleteLoop_failures_empty oracle paths.dedup st (List.nodup_dedup paths)
    rw [delete_objects_raised]
    constructor
    · intro h k hk
      have hempty : (deleteLoop oracle paths.dedup st).2.1 = [] := by
        by_contra hne
        rw [if_neg hne] at h
        exact absurd h (by simp)
      exact hiff.mp hempty k (List.mem_dedup.mpr hk)
    · intro h
      have hempty : (deleteLoop oracle paths.dedup st).2.1 = [] :=
        hiff.mpr (fun k hk => h k (List.mem_dedup.mp hk))
      rw [if_pos hempty]
  · intro e he
    rw [delete_objects_raised] at he
    by_cases hf : (deleteLoop oracle paths.dedup st).2.1 = []
    · rw [if_pos hf] at he
      exact absurd he (by simp)
    · rw [if_neg hf] at he
      exact (Option.some.injEq _ _ ▸ he :
        PyExc.runtimeError (String.toList "blabla") = e).symm

/-- C4, the claim as frozen, refuted at a concrete input: under the
provider-error outcome the cached container-existence flag is *not*
updated — after the very same probe outcome the cache still holds
whatever value it had before, so two different prior caches remain
different. -/
theorem test_connectivity_cache_counterexample :
    (test_connectivity (ProbeOutcome.err ['b']) (some true)).2.1 ≠
      (test_connectivity (ProbeOutcome.err ['b']) (some false)).2.1 := by
  decide

/-- C4 (amended): for every provider outcome while probing,
`test_connectivity` returns a boolean and never propagates an exception
(it is total into `Bool`), returning `true` exactly when the existence
probe completed without a provider error; on a successful probe it
updates the cached container-existence flag to the probe's result, while
on a provider error the flag is left unchanged (and an error is logged). -/
theorem test_connectivity_spec (outcome : ProbeOutcome) (cache : Option Bool) :
    ((test_connectivity outcome cache).1 =
        match outcome with | .ok _ => true | .err _ => false) ∧
      ((test_connectivity outcome cache).2.1 =
        match outcome with | .ok b => some b | .err _ => cache) ∧
      (∀ m, outcome = ProbeOutcome.err m →
        (test_connectivity outcome cache).2.2 ≠ []) := by
  cases outcome <;> simp [test_connectivity]

/-- C6, the claim as frozen, refuted at a concrete input: two failing
uploads whose underlying provider errors differ (`GoogleAPIError("1")`
and `GoogleAPIError("2")`) propagate the *same* exception — a
`TypeError` from the broken diagnostic call `e.with_traceback()` — so the
propagated error is no `TransferError` wrapping the provider error and
preserves neither its type nor its message. -/
theorem upload_fileobj_wrap_counterexample :
    (upload_fileobj (some (PyExc.googleAPIError ['1'])) [] ['k'] [0]).raised =
        (upload_fileobj (some (PyExc.googleAPIError ['2'])) [] ['k'] [0]).raised ∧
      (upload_fileobj (some (PyExc.googleAPIError ['1'])) [] ['k'] [0]).raised =
        some (PyExc.typeError withTracebackMsg) := by
  decide

/-- C6 (amended): whenever the underlying provider call inside
`upload_fileobj` fails, the handler logs the error's type and attribute
dict for diagnosis and the call fails — but the exception propagated is a
`TypeError` raised by the diagnostic call `e.with_traceback()` (invoked
without its required argument), not a `TransferError` wrapping the
provider error; the re-raise of the original error is unreachable, and
the store is left unchanged. -/
theorem upload_fileobj_failure_spec (e : PyExc) (st : Store) (key : Str)
    (body : Bytes) :
    (upload_fileobj (some e) st key body).raised =
        some (PyExc.typeError withTracebackMsg) ∧
      LogEvent.errorType e ∈ (upload_fileobj (some e) st key body).log ∧
      LogEvent.errorDict e ∈ (upload_fileobj (some e) st key body).log ∧
      (upload_fileobj (some e) st key body).store = st := by
  simp [upload_fileobj]

/-- C7: for every store and key, `remote_open` returns a readable stream
over the object's bytes when an object exists at the key, returns the
absent marker `none` — not an error — when no object exists there, and in
both cases issues exactly one provider lookup (`get_blob`). -/
theorem remote_open_spec (st : Store) (key : Str) :
    (∀ b, lookupKey st key = some b → (remote_open st key).1 = some b) ∧
      (lookupKey st key = none → (remote_open st key).1 = none) ∧
      (remote_open st key).2 = [ProviderCall.getBlob key] := by
  refine ⟨?_, ?_, ?_⟩ <;> unfold remote_open
  · intro b hb; rw [hb]
  · intro hb; rw [hb]
  · cases lookupKey st key <;> rfl

/-- C8: `delete_objects` deduplicates its input before attempting
deletion — for every input collection of keys, the provider delete call
is invoked exactly once for each distinct key of the input (in
particular at most once), and never for other keys. -/
theorem delete_objects_dedup (oracle : Str → Option Str) (st : Store)
    (paths : List Str) (key : Str) :
    ((delete_objects oracle st paths).calls.count (ProviderCall.deleteObj key) =
      if key ∈ paths then 1 else 0) := by
  unfold delete_objects
  simp only [deleteLoop_calls]
  rw [List.count_map_of_injective _ ProviderCall.deleteObj
    (fun a b h => by injection h) key]
  rw [List.count_dedup]
  simp

/-- C5: for every input locator string, `_parse_url` returns a
`(container, prefix)` pair with the prefix stripped of leading and
trailing path separators when the string is in one of the two accepted
forms (browser base URL or `gs://` scheme) with a non-empty container
component; for every string matching neither accepted form, or whose
container component is empty, it fails with the malformed-locator
`ValueError`.  Parsing is a pure function of the string (it is defined
with no access to a `Store` or provider-call trace), so it performs zero
network calls. -/
theorem parse_url_spec (url : Str) :
    (urlAccepted url = false →
      _parse_url url = Except.error (PyExc.valueError (malformedFormatMsg url))) ∧
      (urlAccepted url = true → urlNetloc url = [] →
        _parse_url url = Except.error (PyExc.valueError (malformedBucketMsg url))) ∧
      (urlAccepted url = true → urlNetloc url ≠ [] →
        _parse_url url = Except.ok (urlNetloc url, stripChar '/' (urlPath url)) ∧
        (∀ x, (stripChar '/' (urlPath url)).head? = some x → x ≠ '/') ∧
        (∀ x, (stripChar '/' (urlPath url)).getLast? = some x → x ≠ '/')) := by
  refine ⟨?_, ?_, ?_⟩
  · intro h
    simp [_parse_url, h]
  · intro h hn
    simp [_parse_url, h, hn]
  · intro h hn
    refine ⟨by simp [_parse_url, h, hn], ?_, ?_⟩
    · exact fun x => stripChar_head '/' (urlPath url) x
    · exact fun x => stripChar_getLast '/' (urlPath url) x

/-- On a duplicate-free list, a member is counted exactly once. -/
theorem count_one_of_nodup_mem :
    ∀ (l : List Str) (a : Str), l.Nodup → a ∈ l → l.count a = 1
  | [], a, _, hm => absurd hm (by simp)
  | b :: t, a, hn, hm => by
      rcases List.mem_cons.mp hm with h | h
      · subst h
        have hnot : a ∉ t := (List.nodup_cons.mp hn).1
        simp [List.count_cons, List.count_eq_zero.mpr hnot]
      · have hab : a ≠ b := fun he => (List.nodup_cons.mp hn).1 (he ▸ h)
        have := count_one_of_nodup_mem t a (List.nodup_cons.mp hn).2 h
        simp [List.count_cons, this, hab]

/-- C9: for every prefix, non-empty delimiter and listed key carrying the
prefix, `list_bucket` returns the key as an object entry when its
remainder past the prefix does not contain the delimiter, and otherwise
returns the virtual-directory prefix implied by the key as a directory
entry, appearing exactly once in the returned list regardless of how many
objects share it. -/
theorem list_bucket_spec (keys : List Str) (pre delim key : Str)
    ( _hdelim : delim ≠ []) (hmem : key ∈ keys) (hpre : pre.isPrefixOf key) :
    (containsSub delim (key.drop pre.length) = false →
      key ∈ listBlobsObjects keys pre delim ∧
      key ∈ list_bucket keys pre delim) ∧
      (containsSub delim (key.drop pre.length) = true →
        dirPrefixOf pre delim key ∈ listBlobsPrefixes keys pre delim ∧
        dirPrefixOf pre delim key ∈ list_bucket keys pre delim ∧
        (list_bucket keys pre delim).count (dirPrefixOf pre delim key) = 1) := by
  constructor
  · intro hc
    have hobj : key ∈ listBlobsObjects keys pre delim := by
      rw [listBlobsObjects]
      exact List.mem_filter.mpr
        ⟨List.mem_filter.mpr ⟨hmem, by simpa using hpre⟩, by simp [hc]⟩
    exact ⟨hobj, List.mem_append_left _ hobj⟩
  · intro hc
    have hd := containsSub_dirPrefixOf pre delim key hc
    have hdirs : dirPrefixOf pre delim key ∈ listBlobsPrefixes keys pre delim := by
      rw [listBlobsPrefixes]
      apply List.mem_dedup.mpr
      apply List.mem_map_of_mem (dirPrefixOf pre delim)
      exact List.mem_filter.mpr
        ⟨List.mem_filter.mpr ⟨hmem, by simpa using hpre⟩, by simp [hc]⟩
    refine ⟨hdirs, List.mem_append_right _ hdirs, ?_⟩
    rw [list_bucket, List.count_append]
    have h0 : (listBlobsObjects keys pre delim).count (dirPrefixOf pre delim key)
        = 0 := by
      rw [List.count_eq_zero]
      intro hmem'
      have hfalse := (List.mem_filter.mp hmem').2
      simp only [Bool.not_eq_true'] at hfalse
      simp [hfalse] at hd
    have h1 : (listBlobsPrefixes keys pre delim).count (dirPrefixOf pre delim key)
        = 1 :=
      count_one_of_nodup_mem _ _ (by rw [listBlobsPrefixes]; exact List.nodup_dedup _)
        hdirs
    rw [h0, h1]

/-- C9 witness: the theorem applied to the bucket
`["p/a", "p/b/c"]` with prefix `"p/"`, delimiter `"/"` and key
`"p/b/c"`, whose remainder `"b/c"` contains the delimiter: the directory
prefix `"p/b/"` is listed exactly once. -/
theorem list_bucket_spec_witness :
    ((String.toList "/" ≠ []) ∧
        String.toList "p/b/c" ∈ [String.toList "p/a", String.toList "p/b/c"] ∧
        (String.toList "p/").isPrefixOf (String.toList "p/b/c") = true) ∧
      ((containsSub (String.toList "/")
            ((String.toList "p/b/c").drop (String.toList "p/").length) = false →
          String.toList "p/b/c" ∈ listBlobsObjects
            [String.toList "p/a", String.toList "p/b/c"]
            (String.toList "p/") (String.toList "/") ∧
          String.toList "p/b/c" ∈ list_bucket
            [String.toList "p/a", String.toList "p/b/c"]
            (String.toList "p/") (String.toList "/")) ∧
        (containsSub (String.toList "/")
            ((String.toList "p/b/c").drop (String.toList "p/").length) = true →
          dirPrefixOf (String.toList "p/") (String.toList "/")
              (String.toList "p/b/c") ∈ listBlobsPrefixes
            [String.toList "p/a", String.toList "p/b/c"]
            (String.toList "p/") (String.toList "/") ∧
          dirPrefixOf (String.toList "p/") (String.toList "/")
              (String.toList "p/b/c") ∈ list_bucket
            [String.toList "p/a", String.toList "p/b/c"]
            (String.toList "p/") (String.toList "/") ∧
          (list_bucket [String.toList "p/a", String.toList "p/b/c"]
            (String.toList "p/") (String.toList "/")).count
              (dirPrefixOf (String.toList "p/") (String.toList "/")
                (String.toList "p/b/c")) = 1)) :=
  ⟨⟨by decide, by decide, by decide⟩,
    list_bucket_spec [String.toList "p/a", String.toList "p/b/c"]
      (String.toList "p/") (String.toList "/") (String.toList "p/b/c")
      (by decide) (by decide) (by decide)⟩

/-- C10: `_complete_multipart_upload` performs no provider call, raises
nothing, and leaves the store — hence the container's contents and the
adapter's state — unchanged; and already after a (successful)
`_upload_part` call the object at the key is fully visible to readers,
holding that part's payload, before completion is invoked. -/
theorem complete_multipart_no_effect (meta : List Nat) (key : Str)
    (parts : List Nat) (st : Store) :
    (_complete_multipart_upload meta key parts st).store = st ∧
      (_complete_multipart_upload meta key parts st).calls = [] ∧
      (_complete_multipart_upload meta key parts st).raised = none ∧
      (∀ (st' : Store) (body : Bytes) (n : Nat),
        lookupKey ((_upload_part none st' key body n).1.store) key = some body) := by
  refine ⟨rfl, rfl, rfl, ?_⟩
  intro st' body n
  simp [_upload_part, upload_fileobj]

end GcsSpec
